import Mathlib

/-!
Verification of the sound-pad backend playback engine
(`src/src-tauri/src/lib.rs`) against its specification.

The development shallowly embeds the Rust code:

* `EngineState` mirrors `AudioPlayer`: the three independently locked
  cells `sink : Arc<Mutex<Option<Sink>>>`,
  `_stream : Arc<Mutex<Option<(OutputStream, OutputStreamHandle)>>>` and
  `current_path : Arc<Mutex<Option<String>>>`.  A rodio `Sink` is
  abstracted by the number of queued audio units still to be played, so
  `Sink::empty()` is `remaining == 0`.
* Sequential operations (`AudioPlayer.new/stop/play`,
  `open_file_with_retry`, `get_audio_files`, `add_favorite`) are
  translated as pure functions; filesystem and audio-runtime outcomes
  (open attempts, decode, device acquisition, duration probing, JSON
  parse/serialize) are explicit parameters.
* The concurrent completion-watcher protocol of `play_audio`
  (lib.rs lines 186-226) is embedded as a small-step transition
  relation `Step` over configurations: each acquisition of one of the
  three mutexes is one atomic action, threads interleave arbitrarily,
  and the audio runtime consumes queued audio nondeterministically.
-/

namespace SoundPad

/-- The shared state of `AudioPlayer` (lib.rs lines 23-28).
`sink = some r` means a `Sink` is installed with `r` audio units still
queued (`Sink::empty()` iff `r = 0`); `stream` mirrors the
`Option<(OutputStream, OutputStreamHandle)>` pair; `currentPath` mirrors
`current_path`. -/
structure EngineState where
  sink : Option Nat
  stream : Option Unit
  currentPath : Option String
  deriving DecidableEq, Repr

/-- `AudioPlayer::new` (lib.rs lines 35-41): all three cells start `None`. -/
def AudioPlayer.new : EngineState :=
  { sink := none, stream := none, currentPath := none }

/-- `AudioPlayer::stop` (lib.rs lines 87-93): takes the sink (stopping it),
clears the stream pair, clears `current_path`.  As a whole operation the
resulting shared state is always the same. -/
def AudioPlayer.stop (_e : EngineState) : EngineState :=
  { sink := none, stream := none, currentPath := none }

/-- The fully stopped engine state: all three cells `None`. -/
def stoppedState : EngineState :=
  { sink := none, stream := none, currentPath := none }

/-- `AudioPlayer::get_current_path` (lib.rs lines 95-97): snapshot read. -/
def AudioPlayer.get_current_path (e : EngineState) : Option String :=
  e.currentPath

/-- `AudioPlayer::is_playing` (lib.rs lines 99-105): true iff a sink exists
and is non-empty. -/
def AudioPlayer.is_playing (e : EngineState) : Bool :=
  match e.sink with
  | some r => !(r == 0)
  | none => false

/-- One observable event of `open_file_with_retry`: an open attempt on the
path (with its success bit) or a backoff sleep in milliseconds. -/
inductive RetryEvent where
  | attempt (i : Nat) (ok : Bool)
  | sleepMs (ms : Nat)
  deriving DecidableEq, Repr

/-- The loop body of `AudioPlayer::open_file_with_retry`
(lib.rs lines 71-85).  `tryOpen i` is the outcome of `File::open` on the
`i`-th attempt (`Err` carries `e.to_string()`).  The structural fuel
`remaining` encodes the Rust `for i in 0..max_retries` bound:
`remaining = max_retries - i` at every call, so `remaining = 0` is the
loop exit.  Returns the result together with the trace of attempts and
backoff sleeps (`sleep(100ms)` only when `i < max_retries - 1`). -/
def openRetryGo (tryOpen : Nat → Except String Unit) (maxRetries : Nat) :
    Nat → Nat → String → Except String Unit × List RetryEvent
  | 0, _i, lastError =>
    (.error ("Failed to open file after " ++ toString maxRetries ++ " retries: " ++ lastError), [])
  | remaining + 1, i, _lastError =>
    match tryOpen i with
    | .ok _ => (.ok (), [.attempt i true])
    | .error e =>
      let rest := openRetryGo tryOpen maxRetries remaining (i + 1) e
      if i < maxRetries - 1 then
        (rest.1, .attempt i false :: .sleepMs 100 :: rest.2)
      else
        (rest.1, .attempt i false :: rest.2)

/-- `AudioPlayer::open_file_with_retry` (lib.rs lines 71-85): runs the
retry loop from `i = 0` with `last_error = String::new()`. -/
def open_file_with_retry (tryOpen : Nat → Except String Unit) (maxRetries : Nat) :
    Except String Unit × List RetryEvent :=
  openRetryGo tryOpen maxRetries maxRetries 0 ""

/-- The fixed settling delay slept at the top of `AudioPlayer::play`
(lib.rs line 48), in milliseconds. -/
def settleDelayMs : Nat := 50

/-- Total milliseconds of backoff sleep in a retry trace. -/
def sleepSum (evs : List RetryEvent) : Nat :=
  (evs.map fun ev =>
    match ev with
    | .sleepMs n => n
    | .attempt _ _ => 0).sum

/-- `AudioPlayer::play` (lib.rs lines 43-69) as a state transformer.
Environment outcomes are parameters: `tryOpen` the per-attempt
`File::open` results, `decodeRes` the `Decoder::new` result (`Ok r` is a
decoded source of `r` audio units), `streamRes` the
`OutputStream::try_default` result, `sinkRes` the `Sink::try_new` result.
Returns the `Result` together with the engine state after the call.
The code runs `self.stop()` first and only then the fallible steps;
since `stop` is a constant state transformer the call is folded into
each branch below.  Note the engine-level `play` does not set
`current_path`; the command `play_audio` does that afterwards
(lib.rs line 191). -/
def AudioPlayer.play (e : EngineState) (tryOpen : Nat → Except String Unit)
    (decodeRes : Except String Nat) (streamRes : Except String Unit)
    (sinkRes : Except String Unit) : Except String Unit × EngineState :=
  match (open_file_with_retry tryOpen 3).1 with
  | .error msg => (.error msg, AudioPlayer.stop e)
  | .ok _ =>
    match decodeRes with
    | .error msg => (.error ("デコーダーエラー: " ++ msg), AudioPlayer.stop e)
    | .ok r =>
      match streamRes with
      | .error msg => (.error msg, AudioPlayer.stop e)
      | .ok _ =>
        match sinkRes with
        | .error msg => (.error msg, AudioPlayer.stop e)
        | .ok _ => (.ok (), { AudioPlayer.stop e with sink := some r, stream := some () })

/-- The invariant claimed in the data model: the sink and the
device/stream pair are both present or both absent. -/
def sdInv (e : EngineState) : Prop :=
  e.sink.isSome = e.stream.isSome

/-! ## Concurrent model of `play_audio`, `stop_audio` and the watcher

Each acquisition of one of the three mutexes is one atomic action.  A
watcher thread (lib.rs lines 198-223) performs, per loop iteration, one
atomic read of the sink cell (`is_empty`), then, only if it observed
empty, one atomic read of `current_path`, then the emit, then one atomic
write clearing `current_path`. -/

/-- Program counter of a watcher thread.  `poll` is about to read the
sink cell; `checkPath` observed the sink empty and is about to read
`current_path`; `emitting` saw its own path and is about to emit
`audio-finished`; `clearing` is about to clear `current_path`;
`done` means the thread exited its loop. -/
inductive WatcherPC where
  | poll
  | checkPath
  | emitting
  | clearing
  | done
  deriving DecidableEq, Repr

/-- A watcher thread: the `file_path` it was spawned with, and its
program counter. -/
structure Watcher where
  path : String
  pc : WatcherPC
  deriving DecidableEq, Repr

/-- One atomic shared-state action of the command thread.  `takeSink`,
`clearStream`, `clearPath` are the three mutex writes of
`AudioPlayer::stop` (lib.rs lines 87-93); `setSink`/`setStream` the two
writes at the end of `AudioPlayer::play` (lines 65-66); `setPath` the
`current_path` write of `play_audio` (line 191); `spawnWatcher` the
`thread::spawn` (line 198). -/
inductive MainStep where
  | takeSink
  | clearStream
  | clearPath
  | setSink (r : Nat)
  | setStream
  | setPath (p : String)
  | spawnWatcher (p : String)
  deriving DecidableEq, Repr

/-- Effect of a command-thread action on the engine cells. -/
def applyEngine (e : EngineState) : MainStep → EngineState
  | .takeSink => { e with sink := none }
  | .clearStream => { e with stream := none }
  | .clearPath => { e with currentPath := none }
  | .setSink r => { e with sink := some r }
  | .setStream => { e with stream := some () }
  | .setPath p => { e with currentPath := some p }
  | .spawnWatcher _ => e

/-- Watchers spawned by a command-thread action. -/
def spawnOf : MainStep → List Watcher
  | .spawnWatcher p => [{ path := p, pc := .poll }]
  | _ => []

/-- The watcher's `is_empty` read (lib.rs lines 203-209): a missing sink
counts as empty. -/
def sinkEmpty (e : EngineState) : Bool :=
  match e.sink with
  | some r => r == 0
  | none => true

/-- A configuration of the whole system: the shared engine cells, the
pool of watcher threads, the remaining atomic actions of the command
thread, and the list of `audio-finished` payloads emitted so far. -/
structure Config where
  eng : EngineState
  watchers : List Watcher
  main : List MainStep
  emitted : List String
  deriving DecidableEq, Repr

/-- Interleaved small-step semantics.  `consume` is the audio runtime
playing queued audio; `mainAct` executes the next atomic action of the
command thread; the remaining constructors are the atomic actions of an
arbitrary watcher thread, selected by its position in the pool. -/
inductive Step : Config → Config → Prop where
  | consume (c : Config) (r : Nat) :
      c.eng.sink = some (r + 1) →
      Step c { c with eng := { c.eng with sink := some r } }
  | mainAct (c : Config) (s : MainStep) (rest : List MainStep) :
      c.main = s :: rest →
      Step c { eng := applyEngine c.eng s, watchers := c.watchers ++ spawnOf s,
               main := rest, emitted := c.emitted }

  | pollBusy (c : Config) (pre post : List Watcher) (p : String) :
      c.watchers = pre ++ { path := p, pc := .poll } :: post →
      sinkEmpty c.eng = false →
      Step c c
  | pollEmpty (c : Config) (pre post : List Watcher) (p : String) :
      c.watchers = pre ++ { path := p, pc := .poll } :: post →
      sinkEmpty c.eng = true →
      Step c { c with watchers := pre ++ { path := p, pc := .checkPath } :: post }
  | checkHit (c : Config) (pre post : List Watcher) (p : String) :
      c.watchers = pre ++ { path := p, pc := .checkPath } :: post →
      c.eng.currentPath = some p →
      Step c { c with watchers := pre ++ { path := p, pc := .emitting } :: post }
  | checkMiss (c : Config) (pre post : List Watcher) (p : String) :
      c.watchers = pre ++ { path := p, pc := .checkPath } :: post →
      c.eng.currentPath ≠ some p →
      Step c { c with watchers := pre ++ { path := p, pc := .done } :: post }
  | emitFinished (c : Config) (pre post : List Watcher) (p : String) :
      c.watchers = pre ++ { path := p, pc := .emitting } :: post →
      Step c { c with watchers := pre ++ { path := p, pc := .clearing } :: post,
                      emitted := c.emitted ++ [p] }
  | clearAfterEmit (c : Config) (pre post : List Watcher) (p : String) :
      c.watchers = pre ++ { path := p, pc := .clearing } :: post →
      Step c { c with watchers := pre ++ { path := p, pc := .done } :: post,
                      eng := { c.eng with currentPath := none } }

/-- Reachability: zero or more interleaved steps. -/
def Steps : Config → Config → Prop :=
  Relation.ReflTransGen Step

/-- The three atomic actions of `stop_audio` / `AudioPlayer::stop`
(lib.rs lines 87-93), in source order. -/
def stopProg : List MainStep :=
  [.takeSink, .clearStream, .clearPath]

/-- The atomic shared-state actions of a successful `play_audio(p)`
call whose decoded source holds `r` audio units (lib.rs lines 43-69 and
186-198), in source order: the inner `stop`, then the two recording
writes of `play`, then `play_audio`'s `current_path` write and the
watcher spawn. -/
def playAudioProg (p : String) (r : Nat) : List MainStep :=
  stopProg ++ [.setSink r, .setStream, .setPath p, .spawnWatcher p]

/-- The atomic shared-state actions of a failed `play_audio` call: the
inner `stop` runs first, every fallible step (open, decode, device,
sink) comes after it and before any recording write, and the `?` at
lib.rs line 188 returns before the `current_path` write and the spawn. -/
def playErrProg : List MainStep :=
  stopProg

/-! ## Favorites store (`add_favorite`, lib.rs lines 314-325)

The on-disk document is its raw content (`Option String`, `none` when
the file does not exist); `parse` abstracts `serde_json::from_str` and
`serialize` abstracts `serde_json::to_string_pretty`.  The returned
triple is the command result, the disk content after the call, and the
list of documents written by `Favorites::save` during the call. -/

/-- `Favorites::load` (lib.rs lines 289-296): a missing file is an empty
set, otherwise the content is parsed. -/
def loadFavorites (disk : Option String)
    (parse : String → Except String (List String)) : Except String (List String) :=
  match disk with
  | none => .ok []
  | some content => parse content

/-- `add_favorite` (lib.rs lines 314-325): load, and only when the path
is not already contained, push it and save the whole document. -/
def add_favorite (disk : Option String)
    (parse : String → Except String (List String))
    (serialize : List String → String) (filePath : String) :
    Except String Unit × Option String × List String :=
  match loadFavorites disk parse with
  | .error e => (.error e, disk, [])
  | .ok files =>
    if files.contains filePath then
      (.ok (), disk, [])
    else
      (.ok (), some (serialize (files ++ [filePath])), [serialize (files ++ [filePath])])

/-! ## File enumeration (`get_audio_files`, lib.rs lines 145-184)

The filesystem node the command is pointed at is a value of `FsNode`
(`none` models a non-existent path).  `WalkDir::new(path).max_depth(1)`
yields the root and its immediate children; the root is a directory and
is skipped by `is_file()`, subdirectory children are skipped likewise
and never descended into. -/

/-- A filesystem node: a plain file or a directory with children. -/
inductive FsNode where
  | file (name : String)
  | dir (name : String) (children : List FsNode)
  deriving Repr

/-- The descriptor struct `AudioFile` (lib.rs lines 16-21). -/
structure AudioFile where
  name : String
  path : String
  duration_seconds : Option Float
  deriving Repr

/-- Splits a file name at its last dot: returns (chars before, chars
after) or `none` when there is no dot. -/
def afterLastDot : List Char → Option (List Char × List Char)
  | [] => none
  | c :: rest =>
    match afterLastDot rest with
    | some (before, ext) => some (c :: before, ext)
    | none => if c = '.' then some ([], rest) else none

/-- Rust `Path::extension()` on a file name: the portion after the last
dot, or `None` when there is no dot or when the only dot starts the
name (a hidden file like `.bashrc`). -/
def rustExtension (name : String) : Option String :=
  match afterLastDot name.toList with
  | some ([], _) => none
  | some (_ :: _, ext) => some (String.mk ext)
  | none => none

/-- The fixed allow-list of audio extensions (lib.rs line 154). -/
def audio_extensions : List String :=
  ["mp3", "wav", "ogg", "flac", "m4a", "aac"]

/-- The filter of lib.rs lines 163-164: the file name has an extension
and its lowercase form is in the allow-list.  `to_lowercase` is embedded
as a per-char map (`Char.toLower` lowers the ASCII range); since every
allow-listed extension is pure lowercase ASCII and no non-ASCII char
lowercases into any of them, this matches Rust on every input that can
pass the filter. -/
def isAudioFileName (name : String) : Bool :=
  match rustExtension name with
  | some ext => audio_extensions.contains (String.mk (ext.toList.map Char.toLower))
  | none => false

/-- Whether an immediate child is a file passing the extension filter. -/
def isAudioChild : FsNode → Bool
  | .file n => isAudioFileName n
  | .dir _ _ => false

/-- The descriptor built for one immediate child (lib.rs lines 161-177),
or `none` when the child is skipped.  `entry.path()` is the directory
path joined with the file name; `g` abstracts `get_audio_duration`. -/
def audioEntryOf (dirPath : String) (g : String → Option Float) : FsNode → Option AudioFile
  | .file nm =>
    if isAudioFileName nm then
      some { name := nm, path := dirPath ++ "/" ++ nm,
             duration_seconds := g (dirPath ++ "/" ++ nm) }
    else none
  | .dir _ _ => none

/-- Rust `str::cmp` compares UTF-8 bytes; byte order of UTF-8 strings
coincides with lexicographic order on code points, embedded here on the
char list of the string. -/
def byteLe : List Char → List Char → Bool
  | [], _ => true
  | _ :: _, [] => false
  | a :: as, b :: bs =>
    if a.toNat < b.toNat then true
    else if b.toNat < a.toNat then false
    else byteLe as bs

/-- The comparator of `audio_files.sort_by(|a, b| a.name.cmp(&b.name))`
(lib.rs line 182). -/
def nameLeP (a b : AudioFile) : Prop :=
  byteLe a.name.toList b.name.toList = true

instance : DecidableRel nameLeP := fun a b => by
  unfold nameLeP; infer_instance

/-- The sorted list of descriptors for the children of a directory.
Rust `sort_by` is a stable merge sort; in this model the sort key (the
name) determines the whole record (path and duration are functions of
the name), so every sorted permutation of the collected descriptors is
the same list, and the structural `insertionSort` is an observationally
faithful embedding of `sort_by`. -/
def audioListOf (children : List FsNode) (dirPath : String)
    (g : String → Option Float) : List AudioFile :=
  List.insertionSort nameLeP (children.filterMap (audioEntryOf dirPath g))

/-- `get_audio_files` (lib.rs lines 145-184).  `fs` is the node at the
requested path (`none`: path does not exist).  A file is not a
directory, so both non-existence and a plain file yield the
`"Invalid directory"` error (line 148-150). -/
def get_audio_files (fs : Option FsNode) (dirPath : String)
    (g : String → Option Float) : Except String (List AudioFile) :=
  match fs with
  | none => .error "Invalid directory"
  | some (.file _) => .error "Invalid directory"
  | some (.dir _ children) => .ok (audioListOf children dirPath g)

/-! ## Helper lemmas about the byte order -/

lemma byteLe_total (as : List Char) : ∀ bs, byteLe as bs = true ∨ byteLe bs as = true := by
  induction as with
  | nil => intro bs; left; rfl
  | cons a as ih =>
    intro bs
    cases bs with
    | nil => right; rfl
    | cons b bs =>
      simp only [byteLe]
      rcases Nat.lt_trichotomy a.toNat b.toNat with h | h | h
      · left; simp [h]
      · have h2 : ¬a.toNat < b.toNat := by omega
        have h3 : ¬b.toNat < a.toNat := by omega
        simp only [h2, h3, if_false]
        exact ih bs
      · right; simp [h]

lemma byteLe_trans (as : List Char) :
    ∀ bs cs, byteLe as bs = true → byteLe bs cs = true → byteLe as cs = true := by
  induction as with
  | nil => intro bs cs h1 h2; rfl
  | cons a as ih =>
    intro bs cs h1 h2
    cases bs with
    | nil => simp [byteLe] at h1
    | cons b bs =>
      cases cs with
      | nil => simp [byteLe] at h2
      | cons c cs =>
        simp only [byteLe] at h1 h2 ⊢
        split_ifs at h1 h2 ⊢ <;>
          first
          | rfl
          | omega
          | exact ih bs cs h1 h2

instance : IsTotal AudioFile nameLeP :=
  ⟨fun a b => byteLe_total a.name.toList b.name.toList⟩

instance : IsTrans AudioFile nameLeP :=
  ⟨fun a b c => byteLe_trans a.name.toList b.name.toList c.name.toList⟩

lemma length_filterMap_eq_countP {α β : Type} (f : α → Option β) (l : List α) :
    (l.filterMap f).length = l.countP (fun a => (f a).isSome) := by
  induction l with
  | nil => rfl
  | cons a l ih =>
    cases h : f a <;> simp [List.filterMap_cons, h, List.countP_cons, ih]

lemma audioEntry_isSome (dirPath : String) (g : String → Option Float) (c : FsNode) :
    (audioEntryOf dirPath g c).isSome = isAudioChild c := by
  cases c with
  | file nm =>
    by_cases h : isAudioFileName nm = true
    · simp [audioEntryOf, isAudioChild, h]
    · simp [audioEntryOf, isAudioChild, h]
  | dir nm children => rfl

/-! ## Helper lemmas about the retry loop -/

/-- An opener for which every attempt fails. -/
def allFailOpen : Nat → Except String Unit := fun _ => .error "io error"

lemma openRetry_ok0 (t : Nat → Except String Unit) (h0 : t 0 = .ok ()) :
    open_file_with_retry t 3 = (.ok (), [.attempt 0 true]) := by
  simp [open_file_with_retry, openRetryGo, h0]

lemma openRetry_ok1 (t : Nat → Except String Unit) (e0 : String)
    (h0 : t 0 = .error e0) (h1 : t 1 = .ok ()) :
    open_file_with_retry t 3 =
      (.ok (), [.attempt 0 false, .sleepMs 100, .attempt 1 true]) := by
  simp [open_file_with_retry, openRetryGo, h0, h1]

lemma openRetry_ok2 (t : Nat → Except String Unit) (e0 e1 : String)
    (h0 : t 0 = .error e0) (h1 : t 1 = .error e1) (h2 : t 2 = .ok ()) :
    open_file_with_retry t 3 =
      (.ok (), [.attempt 0 false, .sleepMs 100, .attempt 1 false, .sleepMs 100,
                .attempt 2 true]) := by
  simp [open_file_with_retry, openRetryGo, h0, h1, h2]

lemma retryMsgEq :
    "Failed to open file after " ++ toString (3 : Nat) ++ " retries: " =
      "Failed to open file after 3 retries: " := by
  decide

lemma openRetry_allFail (t : Nat → Except String Unit) (e0 e1 e2 : String)
    (h0 : t 0 = .error e0) (h1 : t 1 = .error e1) (h2 : t 2 = .error e2) :
    open_file_with_retry t 3 =
      (.error ("Failed to open file after 3 retries: " ++ e2),
       [.attempt 0 false, .sleepMs 100, .attempt 1 false, .sleepMs 100,
        .attempt 2 false]) := by
  simp [open_file_with_retry, openRetryGo, h0, h1, h2, ← retryMsgEq]

/-! ## Claim theorems: sequential operations -/

/-- Claim C4: the open-with-retry policy attempts the open at most 3
times with a 100ms backoff between consecutive attempts, succeeds as
soon as any attempt succeeds without further attempts, and when every
attempt fails returns the last observed open error annotated with the
retry count 3.  The four cases below are exhaustive over the outcomes of
the first three attempts and fully determine the attempt/sleep trace. -/
theorem open_retry_policy :
    ∀ t : Nat → Except String Unit,
      (t 0 = .ok () →
        open_file_with_retry t 3 = (.ok (), [.attempt 0 true])) ∧
      (∀ e0, t 0 = .error e0 → t 1 = .ok () →
        open_file_with_retry t 3 =
          (.ok (), [.attempt 0 false, .sleepMs 100, .attempt 1 true])) ∧
      (∀ e0 e1, t 0 = .error e0 → t 1 = .error e1 → t 2 = .ok () →
        open_file_with_retry t 3 =
          (.ok (), [.attempt 0 false, .sleepMs 100, .attempt 1 false, .sleepMs 100,
                    .attempt 2 true])) ∧
      (∀ e0 e1 e2, t 0 = .error e0 → t 1 = .error e1 → t 2 = .error e2 →
        open_file_with_retry t 3 =
          (.error ("Failed to open file after 3 retries: " ++ e2),
           [.attempt 0 false, .sleepMs 100, .attempt 1 false, .sleepMs 100,
            .attempt 2 false])) := by
  intro t
  exact ⟨fun h0 => openRetry_ok0 t h0,
         fun e0 h0 h1 => openRetry_ok1 t e0 h0 h1,
         fun e0 e1 h0 h1 h2 => openRetry_ok2 t e0 e1 h0 h1 h2,
         fun e0 e1 e2 h0 h1 h2 => openRetry_allFail t e0 e1 e2 h0 h1 h2⟩

/-- Witness for C4: the always-failing opener exhausts the three
attempts and surfaces the last error annotated with the retry count. -/
theorem open_retry_policy_witness :
    allFailOpen 0 = .error "io error" ∧ allFailOpen 1 = .error "io error" ∧
    allFailOpen 2 = .error "io error" ∧
    open_file_with_retry allFailOpen 3 =
      (.error ("Failed to open file after 3 retries: " ++ "io error"),
       [.attempt 0 false, .sleepMs 100, .attempt 1 false, .sleepMs 100,
        .attempt 2 false]) :=
  ⟨rfl, rfl, rfl,
   (open_retry_policy allFailOpen).2.2.2 "io error" "io error" "io error" rfl rfl rfl⟩

/-- Claim C5 counterexample: in the worst case (every open attempt
fails) the caller is blocked for 200ms of retry backoff, not 300ms: the
100ms sleep runs only between consecutive attempts, i.e. twice for 3
attempts. -/
theorem worst_case_backoff_not_300ms :
    sleepSum (open_file_with_retry allFailOpen 3).2 = 200 ∧ (200 : Nat) ≠ 300 := by
  constructor
  · decide
  · decide

/-- Claim C5 amended: when every open attempt fails the total
retry-backoff blocking is 200ms (and 200ms bounds the backoff of every
run), in addition to the fixed 50ms settling delay slept before the
first open attempt. -/
theorem worst_case_blocking_amended :
    (∀ t : Nat → Except String Unit, sleepSum (open_file_with_retry t 3).2 ≤ 200) ∧
    (∀ (t : Nat → Except String Unit) (e0 e1 e2 : String),
      t 0 = .error e0 → t 1 = .error e1 → t 2 = .error e2 →
      sleepSum (open_file_with_retry t 3).2 = 200) ∧
    settleDelayMs = 50 := by
  refine ⟨?_, ?_, rfl⟩
  · intro t
    rcases h0 : t 0 with e0 | u0
    · rcases h1 : t 1 with e1 | u1
      · rcases h2 : t 2 with e2 | u2
        · rw [openRetry_allFail t e0 e1 e2 h0 h1 h2]; simp [sleepSum]
        · cases u2; rw [openRetry_ok2 t e0 e1 h0 h1 h2]; decide
      · cases u1; rw [openRetry_ok1 t e0 h0 h1]; decide
    · cases u0; rw [openRetry_ok0 t h0]; decide
  · intro t e0 e1 e2 h0 h1 h2
    rw [openRetry_allFail t e0 e1 e2 h0 h1 h2]; simp [sleepSum]

/-- Witness for the amended C5: the always-failing opener reaches the
200ms worst case. -/
theorem worst_case_blocking_amended_witness :
    allFailOpen 0 = .error "io error" ∧
    sleepSum (open_file_with_retry allFailOpen 3).2 = 200 :=
  ⟨rfl, worst_case_blocking_amended.2.1 allFailOpen "io error" "io error" "io error"
    rfl rfl rfl⟩

/-- Claim C6: `stop` is modelled as a total function (it never fails),
from every engine state it leaves all three cells `None`, calling it on
an already-stopped engine is a no-op, and `stop ∘ stop = stop`. -/
theorem stop_total_idempotent :
    (∀ e : EngineState, AudioPlayer.stop e = stoppedState) ∧
    AudioPlayer.stop stoppedState = stoppedState ∧
    (∀ e : EngineState, AudioPlayer.stop (AudioPlayer.stop e) = AudioPlayer.stop e) :=
  ⟨fun _ => rfl, rfl, fun _ => rfl⟩

/-- Claim C7: `active_sink.is_some() == active_device.is_some()` holds
initially and is preserved by every operation: `stop`, `play` (both
outcomes), and every interleaved non-command step of the concurrent
model (watcher actions and audio consumption, isolated below by the
hypothesis that the command thread's remaining program is unchanged).
`get_current_path` and `is_playing` are pure reads (functions of the
state that return no state) and preserve it trivially. -/
theorem sink_stream_invariant_preserved :
    sdInv AudioPlayer.new ∧
    (∀ e : EngineState, sdInv (AudioPlayer.stop e)) ∧
    (∀ (e : EngineState) (t : Nat → Except String Unit) (dec : Except String Nat)
       (st sk : Except String Unit), sdInv (AudioPlayer.play e t dec st sk).2) ∧
    (∀ c c2 : Config, Step c c2 → c2.main = c.main → sdInv c.eng → sdInv c2.eng) := by
  refine ⟨rfl, fun _ => rfl, ?_, ?_⟩
  · intro e t dec st sk
    unfold AudioPlayer.play
    rcases (open_file_with_retry t 3).1 with msg | u
    · exact rfl
    · rcases dec with msg | r
      · exact rfl
      · rcases st with msg | u1
        · exact rfl
        · rcases sk with msg | u2
          · exact rfl
          · exact rfl
  · intro c c2 hstep hmain hinv
    cases hstep with
    | consume r hr =>
      simp only [sdInv] at hinv ⊢
      rw [hr] at hinv
      simpa using hinv
    | mainAct s rest hm =>
      rw [hm] at hmain
      exact absurd hmain (Ne.symm (List.cons_ne_self s rest))
    | pollBusy pre post p hw hempty => exact hinv
    | pollEmpty pre post p hw hempty => exact hinv
    | checkHit pre post p hw hp => exact hinv
    | checkMiss pre post p hw hp => exact hinv
    | emitFinished pre post p hw => exact hinv
    | clearAfterEmit pre post p hw => exact hinv

/-- Witness for C7: a concrete audio-consumption step of the concurrent
model preserves the invariant. -/
theorem sink_stream_invariant_preserved_witness :
    sdInv ({ eng := { sink := some 0, stream := some (), currentPath := none },
             watchers := [], main := [], emitted := [] } : Config).eng :=
  sink_stream_invariant_preserved.2.2.2
    { eng := { sink := some 1, stream := some (), currentPath := none },
      watchers := [], main := [], emitted := [] }
    _ (Step.consume _ 0 rfl) rfl rfl

/-- Claim C9: whenever the engine-level `play` returns an error, the
engine is left fully stopped: the prior playback is stopped and cleared
before any fallible step, and nothing is recorded until every fallible
step has succeeded. -/
theorem play_error_fully_stopped :
    ∀ (e : EngineState) (t : Nat → Except String Unit) (dec : Except String Nat)
      (st sk : Except String Unit) (msg : String),
      (AudioPlayer.play e t dec st sk).1 = .error msg →
      (AudioPlayer.play e t dec st sk).2 = stoppedState := by
  intro e t dec st sk msg
  unfold AudioPlayer.play
  rcases (open_file_with_retry t 3).1 with m | u
  · exact fun _ => rfl
  · rcases dec with m | r
    · exact fun _ => rfl
    · rcases st with m | u1
      · exact fun _ => rfl
      · rcases sk with m | u2
        · exact fun _ => rfl
        · intro herr
          exact absurd herr (by simp)

/-- Witness for C9: a play whose open attempts all fail returns an error
and leaves the fully stopped state. -/
theorem play_error_fully_stopped_witness :
    (AudioPlayer.play { sink := some 5, stream := some (), currentPath := some "x" }
      allFailOpen (.ok 1) (.ok ()) (.ok ())).1 =
      .error ("Failed to open file after 3 retries: " ++ "io error") ∧
    (AudioPlayer.play { sink := some 5, stream := some (), currentPath := some "x" }
      allFailOpen (.ok 1) (.ok ()) (.ok ())).2 = stoppedState := by
  constructor
  · rfl
  · exact play_error_fully_stopped _ allFailOpen (.ok 1) (.ok ()) (.ok ())
      ("Failed to open file after 3 retries: " ++ "io error") (by rfl)

/-- Claim C10: when the path is already contained in the loaded
favorites, `add_favorite` returns `Ok` without calling `save` (no write
event) and the on-disk document is unchanged; the document is rewritten
exactly when the path was absent. -/
theorem add_favorite_present_no_write :
    ∀ (disk : Option String) (parse : String → Except String (List String))
      (serialize : List String → String) (p : String) (files : List String),
      loadFavorites disk parse = .ok files →
      ((files.contains p = true →
         add_favorite disk parse serialize p = (.ok (), disk, [])) ∧
       (files.contains p = false →
         add_favorite disk parse serialize p =
           (.ok (), some (serialize (files ++ [p])), [serialize (files ++ [p])]))) := by
  intro disk parse serialize p files hload
  constructor
  · intro hc
    have hm : p ∈ files := by simpa using hc
    simp [add_favorite, hload, hm]
  · intro hc
    have hm : p ∉ files := by simpa using hc
    simp [add_favorite, hload, hm]

/-- Witness for C10: adding a path that is already on disk writes
nothing and leaves the document bytes unchanged. -/
theorem add_favorite_present_no_write_witness :
    loadFavorites (some "doc") (fun _ => .ok ["p"]) = .ok ["p"] ∧
    add_favorite (some "doc") (fun _ => .ok ["p"]) (fun _ => "out") "p" =
      (.ok (), some "doc", []) :=
  ⟨rfl, (add_favorite_present_no_write (some "doc") (fun _ => .ok ["p"])
    (fun _ => "out") "p" ["p"] rfl).1 rfl⟩

/-- Claim C8: on a non-existent path or a plain file the enumeration
fails with an error; on a directory it returns exactly one descriptor
per immediate-child file whose extension is in the allow-list
(case-insensitively), skipping every other child and never recursing
into subdirectories (every returned descriptor names an immediate-child
file), sorted ascending by the byte/code-point order of the name. -/
theorem list_audio_files_spec :
    (∀ (d : String) (g : String → Option Float),
      get_audio_files none d g = .error "Invalid directory") ∧
    (∀ (nm d : String) (g : String → Option Float),
      get_audio_files (some (.file nm)) d g = .error "Invalid directory") ∧
    (∀ (nm : String) (children : List FsNode) (d : String) (g : String → Option Float),
      get_audio_files (some (.dir nm children)) d g = .ok (audioListOf children d g) ∧
      (audioListOf children d g).length = children.countP isAudioChild ∧
      List.Sorted nameLeP (audioListOf children d g) ∧
      (∀ f, f ∈ audioListOf children d g →
        ∃ n, FsNode.file n ∈ children ∧ isAudioFileName n = true ∧
          f.name = n ∧ f.path = d ++ "/" ++ n)) := by
  refine ⟨fun d g => rfl, fun nm d g => rfl, fun nm children d g => ⟨rfl, ?_, ?_, ?_⟩⟩
  · calc (audioListOf children d g).length
        = (children.filterMap (audioEntryOf d g)).length :=
          (List.perm_insertionSort nameLeP _).length_eq
      _ = children.countP (fun c => (audioEntryOf d g c).isSome) :=
          length_filterMap_eq_countP _ _
      _ = children.countP isAudioChild := by
          refine List.countP_congr fun c _ => ?_
          rw [audioEntry_isSome]
  · exact List.sorted_insertionSort nameLeP _
  · intro f hf
    have hf2 : f ∈ children.filterMap (audioEntryOf d g) :=
      (List.perm_insertionSort nameLeP _).mem_iff.mp hf
    rcases List.mem_filterMap.mp hf2 with ⟨c, hc, hsome⟩
    cases c with
    | file n =>
      by_cases ha : isAudioFileName n = true
      · refine ⟨n, hc, ha, ?_, ?_⟩ <;>
          · simp only [audioEntryOf, ha, if_true, Option.some_inj] at hsome
            rw [← hsome]
      · simp [audioEntryOf, ha] at hsome
    | dir n cs => simp [audioEntryOf] at hsome

/-- Concrete directory for the C8 witness: two audio files (one with an
upper-case extension), one subdirectory containing an audio file, and
one non-audio file. -/
def demoChildren : List FsNode :=
  [.file "b.wav", .file "a.MP3", .dir "sub" [.file "inner.mp3"], .file "notes.txt"]

/-- Witness for C8: on the concrete directory the enumeration returns
exactly the two immediate-child audio descriptors, sorted by name, and
each returned descriptor names an immediate-child audio file. -/
theorem list_audio_files_spec_witness :
    get_audio_files (some (.dir "music" demoChildren)) "/music" (fun _ => none) =
      .ok [{ name := "a.MP3", path := "/music/a.MP3", duration_seconds := none },
           { name := "b.wav", path := "/music/b.wav", duration_seconds := none }] ∧
    (audioListOf demoChildren "/music" (fun _ => none)).length =
      demoChildren.countP isAudioChild ∧
    (∃ n, FsNode.file n ∈ demoChildren ∧ isAudioFileName n = true ∧
      ({ name := "a.MP3", path := "/music/a.MP3", duration_seconds := none } : AudioFile).name = n ∧
      ({ name := "a.MP3", path := "/music/a.MP3", duration_seconds := none } : AudioFile).path =
        "/music" ++ "/" ++ n) := by
  have h := list_audio_files_spec.2.2 "music" demoChildren "/music" (fun _ => none)
  have heval : audioListOf demoChildren "/music" (fun _ => none) =
      [{ name := "a.MP3", path := "/music/a.MP3", duration_seconds := none },
       { name := "b.wav", path := "/music/b.wav", duration_seconds := none }] := rfl
  refine ⟨?_, h.2.1, ?_⟩
  · rw [h.1, heval]
  · exact h.2.2.2 { name := "a.MP3", path := "/music/a.MP3", duration_seconds := none }
      (by rw [heval]; exact List.mem_cons_self _ _)

/-! ## Watcher protocol: scenario configurations and invariants -/

/-- Configuration right after a successful `play_audio(A)` returned:
`A`'s sink is installed with `r` queued units, `current_path = A`, one
watcher for `A` is polling, the command thread is idle and nothing has
been emitted. -/
def natFinishInit (A : String) (r : Nat) : Config :=
  { eng := { sink := some r, stream := some (), currentPath := some A },
    watchers := [{ path := A, pc := .poll }], main := [], emitted := [] }

/-- The configuration a naturally completing play reaches: the watcher
emitted once, cleared `current_path` and exited. -/
def natFinishFinal (A : String) : Config :=
  { eng := { sink := some 0, stream := some (), currentPath := none },
    watchers := [{ path := A, pc := .done }], main := [], emitted := [A] }

/-- Configuration at the start of a `play_audio` call that will fail:
no watcher exists for it and the command thread will only run the inner
`stop` before the `?` returns the error. -/
def errPlayInit (e : EngineState) : Config :=
  { eng := e, watchers := [], main := playErrProg, emitted := [] }

lemma singleton_eq_append_cons {α : Type} {x y : α} {pre post : List α}
    (h : [x] = pre ++ y :: post) : pre = [] ∧ y = x ∧ post = [] := by
  cases pre with
  | nil =>
    simp only [List.nil_append, List.cons.injEq] at h
    exact ⟨rfl, h.1.symm, h.2.symm⟩
  | cons a as =>
    simp only [List.cons_append, List.cons.injEq] at h
    exact absurd h.2 (by simp)

/-- Inductive invariant of the natural-completion scenario: the single
watcher for `A` is the only thread; before it emits, nothing has been
emitted and `current_path` is still `A`; after the emit, exactly `[A]`
has been emitted; once it is done, `current_path` has been cleared. -/
def natFinishInv (A : String) (c : Config) : Prop :=
  c.main = [] ∧
  ∃ pc : WatcherPC, c.watchers = [{ path := A, pc := pc }] ∧
    ((pc = .poll ∨ pc = .checkPath ∨ pc = .emitting) →
      c.emitted = [] ∧ c.eng.currentPath = some A) ∧
    (pc = .clearing → c.emitted = [A] ∧ c.eng.currentPath = some A) ∧
    (pc = .done → c.emitted = [A] ∧ c.eng.currentPath = none)

lemma natFinishInv_step (A : String) (c c2 : Config) (h : Step c c2)
    (hinv : natFinishInv A c) : natFinishInv A c2 := by
  obtain ⟨hmain, pc, hw, h1, h2, h3⟩ := hinv
  cases h with
  | consume r hr => exact ⟨hmain, pc, hw, h1, h2, h3⟩
  | mainAct s rest hm =>
    rw [hmain] at hm
    exact List.noConfusion hm
  | pollBusy pre post p hw2 hne => exact ⟨hmain, pc, hw, h1, h2, h3⟩
  | pollEmpty pre post p hw2 hemp =>
    rw [hw] at hw2
    obtain ⟨hpre, hy, hpost⟩ := singleton_eq_append_cons hw2
    injection hy with hpA hpcA
    subst hpre; subst hpost; subst hpA; subst hpcA
    have hfacts := h1 (Or.inl rfl)
    exact ⟨hmain, .checkPath, rfl,
      fun _ => hfacts, fun hc => WatcherPC.noConfusion hc,
      fun hd => WatcherPC.noConfusion hd⟩
  | checkHit pre post p hw2 hcur =>
    rw [hw] at hw2
    obtain ⟨hpre, hy, hpost⟩ := singleton_eq_append_cons hw2
    injection hy with hpA hpcA
    subst hpre; subst hpost; subst hpA; subst hpcA
    have hfacts := h1 (Or.inr (Or.inl rfl))
    exact ⟨hmain, .emitting, rfl,
      fun _ => hfacts, fun hc => WatcherPC.noConfusion hc,
      fun hd => WatcherPC.noConfusion hd⟩
  | checkMiss pre post p hw2 hcur =>
    rw [hw] at hw2
    obtain ⟨hpre, hy, hpost⟩ := singleton_eq_append_cons hw2
    injection hy with hpA hpcA
    subst hpre; subst hpost; subst hpA; subst hpcA
    exact absurd (h1 (Or.inr (Or.inl rfl))).2 hcur
  | emitFinished pre post p hw2 =>
    rw [hw] at hw2
    obtain ⟨hpre, hy, hpost⟩ := singleton_eq_append_cons hw2
    injection hy with hpA hpcA
    subst hpre; subst hpost; subst hpA; subst hpcA
    have hfacts := h1 (Or.inr (Or.inr rfl))
    refine ⟨hmain, .clearing, rfl,
      fun hc => absurd hc (by simp), ?_, fun hd => WatcherPC.noConfusion hd⟩
    intro _
    rw [hfacts.1]
    exact ⟨rfl, hfacts.2⟩
  | clearAfterEmit pre post p hw2 =>
    rw [hw] at hw2
    obtain ⟨hpre, hy, hpost⟩ := singleton_eq_append_cons hw2
    injection hy with hpA hpcA
    subst hpre; subst hpost; subst hpA; subst hpcA
    have hfacts := h2 rfl
    exact ⟨hmain, .done, rfl,
      fun hc => absurd hc (by simp), fun hc => WatcherPC.noConfusion hc,
      fun _ => ⟨hfacts.1, rfl⟩⟩

lemma natFinishInv_reachable (A : String) (r : Nat) (c : Config)
    (h : Steps (natFinishInit A r) c) : natFinishInv A c := by
  induction h with
  | refl =>
    exact ⟨rfl, .poll, rfl, fun _ => ⟨rfl, rfl⟩,
      fun hc => WatcherPC.noConfusion hc, fun hd => WatcherPC.noConfusion hd⟩
  | tail hsteps hstep ih => exact natFinishInv_step A _ _ hstep ih

/-- Invariant of the failed-play scenario: no watcher ever exists, no
notification is ever emitted, and no remaining command action spawns. -/
def errInv (c : Config) : Prop :=
  c.watchers = [] ∧ c.emitted = [] ∧ ∀ s ∈ c.main, spawnOf s = []

lemma errInv_step (c c2 : Config) (h : Step c c2) (hinv : errInv c) : errInv c2 := by
  obtain ⟨hw, he, hm⟩ := hinv
  cases h with
  | consume r hr => exact ⟨hw, he, hm⟩
  | mainAct s rest hrest =>
    refine ⟨?_, he, ?_⟩
    · rw [hw, List.nil_append]
      exact hm s (by rw [hrest]; exact List.mem_cons_self s rest)
    · intro x hx
      exact hm x (by rw [hrest]; exact List.mem_cons_of_mem s hx)
  | pollBusy pre post p hw2 hne => exact ⟨hw, he, hm⟩
  | pollEmpty pre post p hw2 hemp =>
    rw [hw] at hw2
    exact absurd hw2.symm (by simp)
  | checkHit pre post p hw2 hp =>
    rw [hw] at hw2
    exact absurd hw2.symm (by simp)
  | checkMiss pre post p hw2 hp =>
    rw [hw] at hw2
    exact absurd hw2.symm (by simp)
  | emitFinished pre post p hw2 =>
    rw [hw] at hw2
    exact absurd hw2.symm (by simp)
  | clearAfterEmit pre post p hw2 =>
    rw [hw] at hw2
    exact absurd hw2.symm (by simp)

lemma errInv_reachable (e : EngineState) (c : Config)
    (h : Steps (errPlayInit e) c) : errInv c := by
  induction h with
  | refl =>
    refine ⟨rfl, rfl, ?_⟩
    intro s hs
    have hs2 : s ∈ stopProg := hs
    simp only [stopProg, List.mem_cons, List.not_mem_nil, or_false] at hs2
    rcases hs2 with h | h | h <;> subst h <;> rfl
  | tail hsteps hstep ih => exact errInv_step _ _ hstep ih

lemma consume_trace (A : String) : ∀ r, Steps (natFinishInit A r) (natFinishInit A 0)
  | 0 => Relation.ReflTransGen.refl
  | r + 1 =>
    Relation.ReflTransGen.head (Step.consume (natFinishInit A (r + 1)) r rfl)
      (consume_trace A r)

lemma finish_trace (A : String) : Steps (natFinishInit A 0) (natFinishFinal A) := by
  refine Relation.ReflTransGen.head (Step.pollEmpty (natFinishInit A 0) [] [] A rfl rfl) ?_
  refine Relation.ReflTransGen.head (Step.checkHit _ [] [] A rfl rfl) ?_
  refine Relation.ReflTransGen.head (Step.emitFinished _ [] [] A rfl) ?_
  exact Relation.ReflTransGen.single (Step.clearAfterEmit _ [] [] A rfl)

/-! ## Claim theorems: watcher protocol -/

/-- Claim C2: for a `play(A)` that runs with no intervening `stop()` or
`play()`, every reachable configuration has emitted either nothing or
exactly the single notification carrying `A`; once the watcher has
exited its loop it has emitted exactly `[A]` and `current_path` is
`None` (so the path-match check cannot fire twice); natural completion
(drain the sink, then let the watcher run) actually reaches that
configuration; and for a `play()` that returned an error no watcher is
ever spawned and no notification is ever emitted. -/
theorem watcher_exactly_once :
    (∀ (A : String) (r : Nat) (c : Config), Steps (natFinishInit A r) c →
      (c.emitted = [] ∨ c.emitted = [A]) ∧
      (c.watchers = [{ path := A, pc := .done }] →
        c.emitted = [A] ∧ c.eng.currentPath = none)) ∧
    (∀ (A : String) (r : Nat), Steps (natFinishInit A r) (natFinishFinal A)) ∧
    (∀ (e : EngineState) (c : Config), Steps (errPlayInit e) c →
      c.emitted = [] ∧ c.watchers = []) := by
  refine ⟨?_, ?_, ?_⟩
  · intro A r c hsteps
    obtain ⟨hmain, pc, hw, h1, h2, h3⟩ := natFinishInv_reachable A r c hsteps
    constructor
    · cases pc with
      | poll => exact Or.inl (h1 (Or.inl rfl)).1
      | checkPath => exact Or.inl (h1 (Or.inr (Or.inl rfl))).1
      | emitting => exact Or.inl (h1 (Or.inr (Or.inr rfl))).1
      | clearing => exact Or.inr (h2 rfl).1
      | done => exact Or.inr (h3 rfl).1
    · intro hdone
      rw [hw] at hdone
      simp only [List.cons.injEq, Watcher.mk.injEq, true_and, and_true] at hdone
      exact h3 hdone
  · intro A r
    exact Relation.ReflTransGen.trans (consume_trace A r) (finish_trace A)
  · intro e c hsteps
    obtain ⟨hw, he, _⟩ := errInv_reachable e c hsteps
    exact ⟨he, hw⟩

/-- Witness for C2: the at-most-once and done-implies-emitted facts at
the initial configuration itself. -/
theorem watcher_exactly_once_witness :
    ((natFinishInit "a" 1).emitted = [] ∨ (natFinishInit "a" 1).emitted = ["a"]) ∧
    ((natFinishInit "a" 1).watchers = [{ path := "a", pc := .done }] →
      (natFinishInit "a" 1).emitted = ["a"] ∧
        (natFinishInit "a" 1).eng.currentPath = none) :=
  watcher_exactly_once.1 "a" 1 (natFinishInit "a" 1) Relation.ReflTransGen.refl

/-- Configuration just after `play_audio("a")` returned with 1 queued
audio unit still playing, at the moment the user's `stop_audio` call is
about to run. -/
def stopRaceInit : Config :=
  { eng := { sink := some 1, stream := some (), currentPath := some "a" },
    watchers := [{ path := "a", pc := .poll }], main := stopProg, emitted := [] }

/-- The configuration reached by the racy interleaving: `stop` has taken
the sink but not yet cleared `current_path`, the watcher has polled (no
sink counts as empty), read the still-uncleared `current_path`, matched
it, and emitted `audio-finished("a")`. -/
def stopRaceBad : Config :=
  { eng := { sink := none, stream := some (), currentPath := some "a" },
    watchers := [{ path := "a", pc := .clearing }],
    main := [.clearStream, .clearPath], emitted := ["a"] }

/-- Claim C1 is violated by the code: `stop()` is called while `"a"`
still has queued audio (`sinkEmpty = false` at the start), yet an
interleaving in which the watcher's two reads fall between `stop`'s
sink-take and its `current_path` clear emits the finished notification
for `"a"`.  The three cells are separate mutexes and the watcher reads
the sink cell and `current_path` under separate acquisitions
(lib.rs lines 204, 214), so this interleaving is real. -/
theorem stop_race_spurious_finish :
    sinkEmpty stopRaceInit.eng = false ∧
    stopRaceInit.main = stopProg ∧
    Steps stopRaceInit stopRaceBad ∧
    stopRaceBad.emitted = ["a"] := by
  refine ⟨rfl, rfl, ?_, rfl⟩
  refine Relation.ReflTransGen.head
    (Step.mainAct stopRaceInit .takeSink [.clearStream, .clearPath] rfl) ?_
  refine Relation.ReflTransGen.head (Step.pollEmpty _ [] [] "a" rfl rfl) ?_
  refine Relation.ReflTransGen.head (Step.checkHit _ [] [] "a" rfl rfl) ?_
  exact Relation.ReflTransGen.single (Step.emitFinished _ [] [] "a" rfl)

/-- Idle configuration about to run a successful `play_audio("a")`. -/
def playC3Init : Config :=
  { eng := stoppedState, watchers := [], main := playAudioProg "a" 1, emitted := [] }

/-- Mid-execution configuration of that call: the new sink and stream
are recorded but `current_path` is still `None` (the `setPath` and
`spawnWatcher` actions are still pending). -/
def playC3Mid : Config :=
  { eng := { sink := some 1, stream := some (), currentPath := none },
    watchers := [], main := [.setPath "a", .spawnWatcher "a"], emitted := [] }

/-- Claim C3 counterexample: the three cells are not recorded
atomically.  The intermediate configuration in which the sink and the
stream pair have been updated but `current_path` has not is reachable
(and hence observable by any concurrently running watcher), because the
two writes of `play` (lib.rs lines 65-66) and the `current_path` write
of `play_audio` (line 191) happen under three separate lock
acquisitions. -/
theorem play_records_not_atomic :
    Steps playC3Init playC3Mid ∧
    playC3Mid.eng.sink = some 1 ∧ playC3Mid.eng.stream = some () ∧
    playC3Mid.eng.currentPath = none ∧
    playC3Mid.main ≠ [] := by
  refine ⟨?_, rfl, rfl, rfl, fun h => List.noConfusion h⟩
  refine Relation.ReflTransGen.head (Step.mainAct playC3Init .takeSink _ rfl) ?_
  refine Relation.ReflTransGen.head (Step.mainAct _ .clearStream _ rfl) ?_
  refine Relation.ReflTransGen.head (Step.mainAct _ .clearPath _ rfl) ?_
  refine Relation.ReflTransGen.head (Step.mainAct _ (.setSink 1) _ rfl) ?_
  exact Relation.ReflTransGen.single (Step.mainAct _ .setStream _ rfl)

/-- Sequential execution of the command thread's atomic actions, i.e.
the effect of a command when no other thread interleaves. -/
def runMain (e : EngineState) : List MainStep → EngineState
  | [] => e
  | s :: rest => runMain (applyEngine e s) rest

/-- Claim C3 amended: after a successful `play_audio(p)` completes, the
engine's sink and stream are the newly created ones and `current_path`
equals `Some p`; the three cells are updated sequentially under three
separate locks (sink, then stream, then `current_path`), not
atomically. -/
theorem play_audio_postcondition :
    ∀ (e : EngineState) (p : String) (r : Nat),
      runMain e (playAudioProg p r) =
        { sink := some r, stream := some (), currentPath := some p } :=
  fun _ _ _ => rfl

end SoundPad
